import Mathlib

/-!
Verification of the periodic-observation framework (state watcher, adaptive
watchdog, traffic sampler) against its natural-language specification.

The definitions below are shallow embeddings of the C sources:
`state_watcher.c`, the kernel watchdog implementation, and
`traffic_monitor.c`.  Machine `unsigned long` arithmetic (64-bit on the
target architecture) is modelled as `Nat` with explicit `% 2^64` where the
C computation can wrap.
-/

/-- Width of the C `unsigned long` type on the target (64-bit kernel). -/
def U64 : Nat := 2 ^ 64

/-- C `ULONG_MAX` for a 64-bit `unsigned long`. -/
def ULONG_MAX : Nat := 2 ^ 64 - 1

/-- Kernel `HZ` configuration constant (jiffies per second).  Modelled with
`CONFIG_HZ = 1000`, so one jiffy is one millisecond and a time delta in
jiffies coincides numerically with the same delta in milliseconds. -/
def HZ : Nat := 1000

/-- From `kernel_watchdog.h`: minimum allowed watchdog timeout; shorter
timeouts trigger `BUG()`. -/
def WATCHDOG_MIN_TIMEOUT_MS : Nat := 100

/-- From `kernel_watchdog.h`: maximum work period (shortest-timeout clamp
floor) of the adaptive watchdog engine. -/
def WATCHDOG_MAX_WORK_PERIOD_MS : Nat := 50

/-- From `state_watcher.h`: default base watching interval. -/
def DEFAULT_STATE_WATCHER_INTERVAL_MS : Nat := 200

/-! ## Traffic sampler: overflow-safe delta and per-second rate
(`traffic_monitor.c`, `calc_delta_with_overflow` and `calc_per_sec_rate`) -/

/-- Embedding of `calc_delta_with_overflow(current, prev)`:
`current >= prev ? current - prev : (ULONG_MAX - prev) + current + 1`.
For in-range inputs no intermediate of the C expression wraps, so plain
`Nat` arithmetic is faithful. -/
def calc_delta_with_overflow (current prev : Nat) : Nat :=
  if prev ≤ current then current - prev
  else (ULONG_MAX - prev) + current + 1

/-- Embedding of `calc_per_sec_rate(delta, time_delta_jiffies)`.  The C body
computes `(delta * HZ) / time_delta_jiffies` in `unsigned long`, so the
product wraps modulo `2^64` before the division. -/
def calc_per_sec_rate (delta time_delta_jiffies : Nat) : Nat :=
  if time_delta_jiffies = 0 then 0
  else (delta * HZ) % U64 / time_delta_jiffies

/-! ## Watchdog `add` outcome (`watchdog_add` in the kernel watchdog
implementation) -/

/-- Possible externally visible outcomes of `watchdog_add`: the process
aborts via `BUG()`, the call returns `NULL`, or it returns a fresh item. -/
inductive WatchdogAddOutcome where
  | aborted : WatchdogAddOutcome
  | null_return : WatchdogAddOutcome
  | ok : WatchdogAddOutcome
deriving DecidableEq

/-- Embedding of the control flow of `watchdog_add(timeout_ms,
recovery_func, private_data)`: not-initialized returns `NULL`; a timeout
below `WATCHDOG_MIN_TIMEOUT_MS` hits `BUG()`; a `NULL` recovery function or
a failed allocation returns `NULL`; otherwise the item is created. -/
def watchdog_add (initialized : Bool) (timeout_ms : Nat)
    (has_recovery : Bool) (alloc_ok : Bool) : WatchdogAddOutcome :=
  if ¬initialized then .null_return
  else if timeout_ms < WATCHDOG_MIN_TIMEOUT_MS then .aborted
  else if ¬has_recovery then .null_return
  else if ¬alloc_ok then .null_return
  else .ok

/-! ## Watchdog context: adaptive work period (`update_work_period`,
`watchdog_add`, `watchdog_remove` in the kernel watchdog implementation) -/

/-- Watchdog context state relevant to period adaptation: the timeouts of
the currently valid items (in list order), the current tick period, and
whether the periodic work is scheduled. -/
structure WatchdogCtx where
  items : List Nat
  period_ms : Nat
  work_active : Bool
deriving DecidableEq

/-- Shortest-timeout scan of `update_work_period`: fold starting from
`ULONG_MAX`, replacing the accumulator whenever `item->timeout_ms` is
strictly smaller. -/
def wd_min_timeout (items : List Nat) : Nat :=
  items.foldl (fun m t => if t < m then t else m) ULONG_MAX

/-- Embedding of `update_work_period()`: with valid items present the
period becomes `max(min_timeout / 2, WATCHDOG_MAX_WORK_PERIOD_MS)` and the
work is (re)started; with no valid items the work is stopped and the period
zeroed, but only if the work was active (the other branch leaves the
context untouched). -/
def update_work_period (ctx : WatchdogCtx) : WatchdogCtx :=
  if ctx.items ≠ [] then
    { ctx with
        period_ms := max (wd_min_timeout ctx.items / 2) WATCHDOG_MAX_WORK_PERIOD_MS,
        work_active := true }
  else if ctx.work_active then
    { ctx with work_active := false, period_ms := 0 }
  else ctx

/-- Contexts reachable from `watchdog_init` through successful
`watchdog_add` (timeout at least the enforced minimum, at most
`ULONG_MAX`) and `watchdog_remove` of a valid item.  Failing calls leave
the context unchanged and need no constructor. -/
inductive WdReachable : WatchdogCtx → Prop where
  | init : WdReachable ⟨[], 0, false⟩
  | add (ctx : WatchdogCtx) (t : Nat) (hr : WdReachable ctx)
      (hmin : WATCHDOG_MIN_TIMEOUT_MS ≤ t) (hmax : t ≤ ULONG_MAX) :
      WdReachable (update_work_period { ctx with items := ctx.items ++ [t] })
  | remove (ctx : WatchdogCtx) (i : Nat) (hr : WdReachable ctx)
      (hi : i < ctx.items.length) :
      WdReachable (update_work_period { ctx with items := ctx.items.eraseIdx i })

/-- Invariant tying the period and work flag to the item multiset. -/
def WdInv (ctx : WatchdogCtx) : Prop :=
  (ctx.items = [] → ctx.period_ms = 0 ∧ ctx.work_active = false) ∧
  (ctx.items ≠ [] →
    ctx.period_ms = max (wd_min_timeout ctx.items / 2) WATCHDOG_MAX_WORK_PERIOD_MS ∧
    ctx.work_active = true) ∧
  (∀ t ∈ ctx.items, t ≤ ULONG_MAX)

/-! ## Watchdog item: lock-free start (`watchdog_start`) -/

/-- Embedding of `struct watchdog_item` (list linkage omitted; the atomic
flags become plain booleans in this single-thread model). -/
structure watchdog_item where
  timeout_ms : Nat
  start_time : Nat
  active : Bool
  valid : Bool
deriving DecidableEq

/-- Embedding of `watchdog_start(item)`: error when the system is not
initialized or the item is invalid; otherwise record the start time and set
the active flag only if the item is not already active.  The second result
component is the C return value. -/
def watchdog_start (initialized : Bool) (now : Nat)
    (item : watchdog_item) : watchdog_item × Int :=
  if ¬initialized then (item, -19)
  else if ¬item.valid then (item, -22)
  else if ¬item.active then ({ item with start_time := now, active := true }, 0)
  else (item, 0)

/-! ## State watcher: data model and `state_watcher_add_item` -/

/-- Embedding of `struct watch_item` (list linkage, name buffer and opaque
pointers omitted; the presence of the `state_func` and `action_func`
callbacks is kept as booleans). -/
structure watch_item where
  interval_ms : Nat
  hysteresis : Nat
  has_state_func : Bool
  has_action_func : Bool
  current_state : Nat
  last_action_state : Nat
  last_check_time : Nat
  candidate_state : Nat
  consecutive_count : Nat
  is_forced : Bool
  forced_state : Nat
  forced_state_expire_time : Nat
  check_count : Nat
  action_count : Nat
deriving DecidableEq

/-- Embedding of `struct watch_item_init` (name and private data omitted). -/
structure watch_item_init where
  interval_ms : Nat
  hysteresis : Nat
  has_state_func : Bool
  has_action_func : Bool
deriving DecidableEq

/-- Embedding of `struct state_watcher` (work/lock machinery omitted). -/
structure state_watcher where
  initialized : Bool
  running : Bool
  base_interval_ms : Nat
  items : List watch_item
  total_checks : Nat
  total_actions : Nat
deriving DecidableEq

/-- Interval resolution of `state_watcher_add_item`:
`init->interval_ms ? init->interval_ms : watcher->base_interval_ms`. -/
def resolved_interval (w : state_watcher) (init : watch_item_init) : Nat :=
  if init.interval_ms ≠ 0 then init.interval_ms else w.base_interval_ms

/-- Item initialization block of `state_watcher_add_item` (the field values
written after a successful `kzalloc`). -/
def new_watch_item (interval_ms hysteresis : Nat) (has_action : Bool)
    (now : Nat) : watch_item :=
  ⟨interval_ms, hysteresis, true, has_action, 0, 0, now, 0, 0, false, 0, 0, 0, 0⟩

/-- Embedding of `state_watcher_add_item(watcher, init)`: argument and
interval validation, allocation, initialization, and append to the item
list.  `now` models `jiffies` read for `last_check_time`. -/
def state_watcher_add_item (w : state_watcher) (init : watch_item_init)
    (alloc_ok : Bool) (now : Nat) : state_watcher × Option watch_item :=
  if ¬w.initialized ∨ ¬init.has_state_func then (w, none)
  else if resolved_interval w init % w.base_interval_ms ≠ 0 then (w, none)
  else if resolved_interval w init < w.base_interval_ms then (w, none)
  else if ¬alloc_ok then (w, none)
  else
    let item := new_watch_item (resolved_interval w init) init.hysteresis
      init.has_action_func now
    ({ w with items := w.items ++ [item] }, some item)

/-! ## Traffic sampler registry and `netdevice_stats_delta` -/

/-- Embedding of `struct simple_net_device_stats`. -/
structure simple_net_device_stats where
  tx_packets : Nat
  tx_bytes : Nat
  rx_packets : Nat
  rx_bytes : Nat
deriving DecidableEq

/-- Embedding of `struct netdev_monitor_entry` (device pointer and hash
node omitted; the hash table is modelled as the list of its entries, with
lookups filtered by `strcmp` exactly as in the source). -/
structure netdev_monitor_entry where
  ifname : String
  current_stats : simple_net_device_stats
  prev_stats : simple_net_device_stats
  current_stats_jiffies : Nat
  prev_stats_jiffies : Nat
deriving DecidableEq

/-- Wrap-aware time-delta block of `netdevice_stats_delta`. -/
def entry_time_delta (e : netdev_monitor_entry) : Nat :=
  if e.prev_stats_jiffies ≤ e.current_stats_jiffies then
    e.current_stats_jiffies - e.prev_stats_jiffies
  else (ULONG_MAX - e.prev_stats_jiffies) + e.current_stats_jiffies + 1

/-- Per-entry rate computation of `netdevice_stats_delta`: the four
`calc_per_sec_rate(calc_delta_with_overflow(...), time_delta)` values. -/
def entry_rates (e : netdev_monitor_entry) : simple_net_device_stats :=
  ⟨calc_per_sec_rate
      (calc_delta_with_overflow e.current_stats.tx_packets e.prev_stats.tx_packets)
      (entry_time_delta e),
   calc_per_sec_rate
      (calc_delta_with_overflow e.current_stats.tx_bytes e.prev_stats.tx_bytes)
      (entry_time_delta e),
   calc_per_sec_rate
      (calc_delta_with_overflow e.current_stats.rx_packets e.prev_stats.rx_packets)
      (entry_time_delta e),
   calc_per_sec_rate
      (calc_delta_with_overflow e.current_stats.rx_bytes e.prev_stats.rx_bytes)
      (entry_time_delta e)⟩

/-- Fieldwise `+=` accumulation of the aggregate branch, in `unsigned
long` (wrapping) arithmetic. -/
def stats_add (a b : simple_net_device_stats) : simple_net_device_stats :=
  ⟨(a.tx_packets + b.tx_packets) % U64, (a.tx_bytes + b.tx_bytes) % U64,
   (a.rx_packets + b.rx_packets) % U64, (a.rx_bytes + b.rx_bytes) % U64⟩

/-- The `memset(&delta, 0, sizeof(delta))` starting value. -/
def zero_stats : simple_net_device_stats := ⟨0, 0, 0, 0⟩

/-- Embedding of `netdevice_stats_delta(ifname)`: with a name, return the
rates of the first entry whose `ifname` strcmp-matches (zero snapshot when
not found); with `NULL`, accumulate the rates of every registered entry. -/
def netdevice_stats_delta (entries : List netdev_monitor_entry)
    (ifname : Option String) : simple_net_device_stats :=
  match ifname with
  | some name =>
    match entries.find? (fun e => e.ifname == name) with
    | some e => entry_rates e
    | none => zero_stats
  | none => entries.foldl (fun acc e => stats_add acc (entry_rates e)) zero_stats

/-! ## State watcher: hysteresis comparator and per-item tick
(`state_watcher.c`, `state_watcher_state_changed_with_hysteresis` and the
per-item body of `state_watcher_work_func`) -/

/-- Embedding of `state_watcher_state_changed_with_hysteresis(item,
new_state)`: returns the mutated item together with the C return value.
`hysteresis = 0` answers immediately without touching the scratch; a
return to `last_action_state` resets the filter; a candidate match
increments the count and fires at the threshold; a new candidate restarts
the count at 1. -/
def state_watcher_state_changed_with_hysteresis (item : watch_item)
    (new_state : Nat) : watch_item × Bool :=
  if item.hysteresis = 0 then
    (item, decide (item.last_action_state ≠ new_state))
  else if item.last_action_state = new_state then
    ({ item with consecutive_count := 0, candidate_state := new_state }, false)
  else if item.candidate_state = new_state then
    if item.hysteresis ≤ item.consecutive_count + 1 then
      ({ item with consecutive_count := 0 }, true)
    else
      ({ item with consecutive_count := item.consecutive_count + 1 }, false)
  else
    ({ item with candidate_state := new_state, consecutive_count := 1 }, false)

/-- Embedding of the per-item body of `state_watcher_work_func` for one
item on one tick: due-time check, lazy forced-state expiry, sampling
(`raw` is the value the item's `state_func` returns), forced-state
substitution, change detection (raw inequality when forced, hysteresis
comparator otherwise), action dispatch bookkeeping when an action is
registered, and the final `current_state`/`last_check_time` update.
Returns the updated watcher counters, the updated item, and the
`state_changed` decision. -/
def state_watcher_item_tick (w : state_watcher) (item : watch_item)
    (current_time raw : Nat) : state_watcher × watch_item × Bool :=
  if item.last_check_time + item.interval_ms < current_time then
    let item1 :=
      if item.is_forced ∧ item.forced_state_expire_time < current_time then
        { item with is_forced := false }
      else item
    if item1.has_state_func then
      let item2 := { item1 with check_count := item1.check_count + 1 }
      let w1 := { w with total_checks := w.total_checks + 1 }
      let new_state := if item2.is_forced then item2.forced_state else raw
      let cr :=
        if item2.is_forced then
          (item2, decide (item2.last_action_state ≠ new_state))
        else
          state_watcher_state_changed_with_hysteresis item2 new_state
      let wi :=
        if cr.2 && cr.1.has_action_func then
          ({ w1 with total_actions := w1.total_actions + 1 },
           { cr.1 with last_action_state := new_state,
                       action_count := cr.1.action_count + 1 })
        else (w1, cr.1)
      (wi.1,
       { wi.2 with current_state := new_state, last_check_time := current_time },
       cr.2)
    else (w, item1, false)
  else (w, item, false)

/-- Iterated runs of the bare hysteresis comparator on a constant sample
value, used to express that a fired-but-unactioned detector can rebuild
its consecutive count and fire again. -/
def hysteresis_rerun (item : watch_item) (v : Nat) : Nat → watch_item
  | 0 => item
  | n + 1 => (state_watcher_state_changed_with_hysteresis
      (hysteresis_rerun item v n) v).1

/-! ## Claim C1: hysteresis trace semantics -/

/-- Per-sample engine dynamics of `state_watcher_work_func` for an
always-due, non-forced item with both callbacks registered: run the
hysteresis comparator and, when it fires, perform the engine's
`last_action_state := new_state` bookkeeping of the action branch. -/
def hyst_engine_step (item : watch_item) (x : Nat) : watch_item × Bool :=
  if (state_watcher_state_changed_with_hysteresis item x).2 then
    ({ (state_watcher_state_changed_with_hysteresis item x).1 with
        last_action_state := x }, true)
  else state_watcher_state_changed_with_hysteresis item x

/-- A freshly added watch item with hysteresis `H` (all state fields
zero), the start state of a C1 trace. -/
def c1_init (H : Nat) : watch_item :=
  new_watch_item DEFAULT_STATE_WATCHER_INTERVAL_MS H true 0

/-- Engine state after the first `n` samples of `f`. -/
def c1S (H : Nat) (f : Nat → Nat) : Nat → watch_item
  | 0 => c1_init H
  | n + 1 => (hyst_engine_step (c1S H f n) (f n)).1

/-- Whether the action fires on (0-based) sample `n`. -/
def c1F (H : Nat) (f : Nat → Nat) (n : Nat) : Bool :=
  (hyst_engine_step (c1S H f n) (f n)).2

/-- Declarative rendering of the claim with window length `W`: sample `k`
is the `W`-th consecutive sample equal to a common value distinct from the
`last_action_state` in effect at the start of the window (so no
intervening sample equals it), and the window is exact — the sample just
before it, if any, differs. -/
def specActionFires (W H : Nat) (f : Nat → Nat) (k : Nat) : Prop :=
  W ≤ k + 1 ∧
  (∀ j, k + 1 - W ≤ j → j ≤ k → f j = f k) ∧
  f k ≠ (c1S H f (k + 1 - W)).last_action_state ∧
  (k + 1 - W = 0 ∨ f (k - W) ≠ f k)

/-- Run invariant used to settle C1: the stored consecutive count is the
length of the current run of the candidate value, the candidate equals the
previous sample, and the baseline did not change during the run. -/
structure C1Inv (H : Nat) (f : Nat → Nat) (n : Nat) : Prop where
  cnt_lt : (c1S H f n).consecutive_count < max H 2
  cand_zero : (c1S H f n).consecutive_count = 0 →
    (c1S H f n).candidate_state = (c1S H f n).last_action_state
  cand_prev : 0 < n → (c1S H f n).candidate_state = f (n - 1)
  run_ne : 0 < (c1S H f n).consecutive_count →
    (c1S H f n).candidate_state ≠ (c1S H f n).last_action_state
  run_le : (c1S H f n).consecutive_count ≤ n
  run_window : ∀ j, n - (c1S H f n).consecutive_count ≤ j → j < n →
    f j = (c1S H f n).candidate_state
  run_base : ∀ j, n - (c1S H f n).consecutive_count ≤ j → j ≤ n →
    (c1S H f j).last_action_state = (c1S H f n).last_action_state
  run_start : 0 < (c1S H f n).consecutive_count →
    (n - (c1S H f n).consecutive_count = 0 ∨
      f (n - (c1S H f n).consecutive_count - 1) ≠ (c1S H f n).candidate_state)

/-! ## Claim C5: overflow-safe delta equals subtraction modulo `2^64` -/

/-- C5: for counter values in the `unsigned long` range, the overflow-safe
delta equals `(current − prev) mod 2^64`: it is `current − prev` when
`current ≥ prev` and `(ULONG_MAX − prev) + current + 1` on wrap. -/
theorem calc_delta_with_overflow_mod (current prev : Nat)
    (hc : current < U64) (hp : prev < U64) :
    (calc_delta_with_overflow current prev : ℤ) =
      ((current : ℤ) - (prev : ℤ)) % (U64 : ℤ) ∧
    (prev ≤ current → calc_delta_with_overflow current prev = current - prev) ∧
    (current < prev →
      calc_delta_with_overflow current prev = (ULONG_MAX - prev) + current + 1) := by
  have hU : U64 = 18446744073709551616 := by norm_num [U64]
  have hM : ULONG_MAX = 18446744073709551615 := by norm_num [ULONG_MAX]
  rw [hU] at hc hp
  unfold calc_delta_with_overflow
  rw [hM, hU]
  split
  next h =>
    refine ⟨?_, fun _ => rfl, fun hlt => absurd hlt (by omega)⟩
    omega
  next h =>
    refine ⟨?_, fun hle => absurd hle h, fun _ => rfl⟩
    omega

/-- Witness for C5 at concrete inputs (a wrapped counter pair). -/
theorem calc_delta_with_overflow_mod_witness :
    (calc_delta_with_overflow 900 (ULONG_MAX - 100) : ℤ) =
      ((900 : ℤ) - ((ULONG_MAX - 100 : Nat) : ℤ)) % (U64 : ℤ) :=
  (calc_delta_with_overflow_mod 900 (ULONG_MAX - 100)
    (by norm_num [U64]) (by norm_num [ULONG_MAX, U64])).1

/-! ## Claim C4: per-second rate (corrected) -/

/-- Counterexample for C4 as stated: the C intermediate `delta * HZ` is a
wrapping 64-bit product, so for `delta = 2^63` and a one-second interval the
computed rate is `0`, not `delta × 1000 / dt_ms = 2^63`. -/
theorem calc_per_sec_rate_overflow_counterexample :
    calc_per_sec_rate (2 ^ 63) 1000 = 0 ∧ 2 ^ 63 * 1000 / 1000 = 2 ^ 63 ∧
      (2 ^ 63 : Nat) ≠ 0 :=
  ⟨by decide, by norm_num, by norm_num⟩

/-- C4 (amended): the rate is `0` on a zero interval (no division is
performed); otherwise it is `(delta × 1000 mod 2^64) / dt_ms`, the product
being a wrapping 64-bit intermediate; it agrees with the exact
`delta × 1000 / dt_ms` precisely on inputs where the product fits in 64
bits. -/
theorem calc_per_sec_rate_spec (delta dt : Nat) :
    calc_per_sec_rate delta 0 = 0 ∧
    (dt ≠ 0 → calc_per_sec_rate delta dt = (delta * 1000) % U64 / dt) ∧
    (dt ≠ 0 → delta * 1000 < U64 →
      calc_per_sec_rate delta dt = delta * 1000 / dt) := by
  refine ⟨rfl, fun h => ?_, fun h hlt => ?_⟩
  · simp [calc_per_sec_rate, h, HZ]
  · simp [calc_per_sec_rate, h, HZ, Nat.mod_eq_of_lt hlt]

/-- Witness for C4 (amended) at concrete inputs. -/
theorem calc_per_sec_rate_spec_witness :
    calc_per_sec_rate 500 0 = 0 ∧
    ((250 : Nat) ≠ 0 → calc_per_sec_rate 500 250 = (500 * 1000) % U64 / 250) ∧
    ((250 : Nat) ≠ 0 → 500 * 1000 < U64 →
      calc_per_sec_rate 500 250 = 500 * 1000 / 250) :=
  calc_per_sec_rate_spec 500 250

/-! ## Claim C2: watchdog minimum-timeout abort (corrected) -/

/-- Counterexample for C2 as stated: with the system initialized, a valid
recovery function and a successful allocation, `watchdog_add` with
`timeout_ms = 150 < 200` returns a fresh item instead of aborting, because
the code's `WATCHDOG_MIN_TIMEOUT_MS` is `100`, not `200`. -/
theorem watchdog_add_150_no_abort :
    watchdog_add true 150 true true ≠ WatchdogAddOutcome.aborted ∧
      150 < 200 := by
  constructor
  · decide
  · norm_num

/-- C2 (amended): with the watchdog system initialized, `watchdog_add`
aborts the process (rather than returning any value) exactly when
`timeout_ms` is below the code's minimum of 100 ms; for every
`timeout_ms ≥ 100` it never aborts. -/
theorem watchdog_add_abort_iff (timeout_ms : Nat)
    (has_recovery alloc_ok : Bool) :
    (watchdog_add true timeout_ms has_recovery alloc_ok =
        WatchdogAddOutcome.aborted ↔ timeout_ms < WATCHDOG_MIN_TIMEOUT_MS) ∧
    (WATCHDOG_MIN_TIMEOUT_MS ≤ timeout_ms →
      watchdog_add true timeout_ms has_recovery alloc_ok ≠
        WatchdogAddOutcome.aborted) := by
  have key : watchdog_add true timeout_ms has_recovery alloc_ok =
      WatchdogAddOutcome.aborted ↔ timeout_ms < WATCHDOG_MIN_TIMEOUT_MS := by
    unfold watchdog_add
    split_ifs with h1 h2 h3 h4 <;> simp_all
  exact ⟨key, fun hge h => absurd (key.mp h) (by omega)⟩

theorem wd_foldl_eq_foldl_min (l : List Nat) (a : Nat) :
    l.foldl (fun m t => if t < m then t else m) a = l.foldl min a := by
  induction l generalizing a with
  | nil => rfl
  | cons x xs ih =>
    simp only [List.foldl_cons]
    rw [ih]
    congr 1
    split <;> omega

theorem wd_foldl_min_le_init (l : List Nat) (a : Nat) : l.foldl min a ≤ a := by
  induction l generalizing a with
  | nil => exact le_refl a
  | cons x xs ih => exact le_trans (ih (min a x)) (min_le_left a x)

theorem wd_foldl_min_le_mem (l : List Nat) (a x : Nat) (hx : x ∈ l) :
    l.foldl min a ≤ x := by
  induction l generalizing a with
  | nil => cases hx
  | cons y ys ih =>
    rcases List.mem_cons.mp hx with h | h
    · subst h
      exact le_trans (wd_foldl_min_le_init ys (min a x)) (min_le_right a x)
    · exact ih (min a y) h

theorem wd_foldl_min_mem_or_init (l : List Nat) (a : Nat) :
    l.foldl min a = a ∨ l.foldl min a ∈ l := by
  induction l generalizing a with
  | nil => exact Or.inl rfl
  | cons y ys ih =>
    simp only [List.foldl_cons]
    rcases ih (min a y) with h | h
    · rcases le_total a y with hay | hya
      · left
        rw [h, min_eq_left hay]
      · right
        rw [h, min_eq_right hya]
        exact List.mem_cons_self y ys
    · exact Or.inr (List.mem_cons_of_mem y h)

theorem wd_min_timeout_le (l : List Nat) (t : Nat) (ht : t ∈ l) :
    wd_min_timeout l ≤ t := by
  rw [wd_min_timeout, wd_foldl_eq_foldl_min]
  exact wd_foldl_min_le_mem l ULONG_MAX t ht

theorem wd_min_timeout_mem (l : List Nat) (hne : l ≠ [])
    (hb : ∀ t ∈ l, t ≤ ULONG_MAX) : wd_min_timeout l ∈ l := by
  rw [wd_min_timeout, wd_foldl_eq_foldl_min]
  rcases wd_foldl_min_mem_or_init l ULONG_MAX with h | h
  · obtain ⟨x, hx⟩ := List.exists_mem_of_ne_nil l hne
    have h1 : l.foldl min ULONG_MAX ≤ x := wd_foldl_min_le_mem l ULONG_MAX x hx
    have h2 : x = ULONG_MAX := le_antisymm (hb x hx) (h ▸ h1)
    rw [h, ← h2]
    exact hx
  · exact h

theorem update_work_period_items (ctx : WatchdogCtx) :
    (update_work_period ctx).items = ctx.items := by
  unfold update_work_period
  split_ifs <;> rfl

theorem wdReachable_inv (ctx : WatchdogCtx) (hr : WdReachable ctx) : WdInv ctx := by
  induction hr with
  | init =>
    exact ⟨fun _ => ⟨rfl, rfl⟩, fun h => absurd rfl h, by simp⟩
  | add ctx t hr hmin hmax ih =>
    have hne : (ctx.items ++ [t]) ≠ [] := by simp
    have hupd : update_work_period { ctx with items := ctx.items ++ [t] } =
        { items := ctx.items ++ [t],
          period_ms := max (wd_min_timeout (ctx.items ++ [t]) / 2)
            WATCHDOG_MAX_WORK_PERIOD_MS,
          work_active := true } := by
      unfold update_work_period
      rw [if_pos hne]
    rw [hupd]
    refine ⟨fun h => absurd h hne, fun _ => ⟨rfl, rfl⟩, ?_⟩
    intro x hx
    rcases List.mem_append.mp hx with h | h
    · exact ih.2.2 x h
    · rw [List.mem_singleton.mp h]
      exact hmax
  | remove ctx i hr hi ih =>
    by_cases hne : ctx.items.eraseIdx i = []
    · have hctxne : ctx.items ≠ [] := by
        intro h
        rw [h] at hi
        exact absurd hi (by simp)
      have hact : ctx.work_active = true := (ih.2.1 hctxne).2
      have hupd : update_work_period { ctx with items := ctx.items.eraseIdx i } =
          { items := ctx.items.eraseIdx i, period_ms := 0, work_active := false } := by
        unfold update_work_period
        rw [if_neg (not_not_intro hne), if_pos hact]
      rw [hupd]
      exact ⟨fun _ => ⟨rfl, rfl⟩, fun h => absurd hne h, by simp [hne]⟩
    · have hupd : update_work_period { ctx with items := ctx.items.eraseIdx i } =
          { items := ctx.items.eraseIdx i,
            period_ms := max (wd_min_timeout (ctx.items.eraseIdx i) / 2)
              WATCHDOG_MAX_WORK_PERIOD_MS,
            work_active := true } := by
        unfold update_work_period
        rw [if_pos hne]
      rw [hupd]
      refine ⟨fun h => absurd h hne, fun _ => ⟨rfl, rfl⟩, ?_⟩
      intro x hx
      exact ih.2.2 x ((ctx.items.eraseIdx_sublist i).subset hx)

/-- C3: after every watchdog add or remove, with at least one valid item
remaining the context's `period_ms` equals
`max(shortest valid timeout / 2, WATCHDOG_MAX_WORK_PERIOD_MS)` — the fold
`wd_min_timeout` being the genuine shortest timeout — and is therefore at
least the floor; with no valid items remaining, `period_ms = 0` and
`work_active = false`. -/
theorem watchdog_period_invariant (ctx : WatchdogCtx) (hr : WdReachable ctx) :
    (ctx.items ≠ [] →
      ctx.period_ms = max (wd_min_timeout ctx.items / 2) WATCHDOG_MAX_WORK_PERIOD_MS ∧
      WATCHDOG_MAX_WORK_PERIOD_MS ≤ ctx.period_ms ∧
      wd_min_timeout ctx.items ∈ ctx.items ∧
      (∀ t ∈ ctx.items, wd_min_timeout ctx.items ≤ t)) ∧
    (ctx.items = [] → ctx.period_ms = 0 ∧ ctx.work_active = false) := by
  have hinv := wdReachable_inv ctx hr
  refine ⟨fun hne => ?_, hinv.1⟩
  obtain ⟨hper, -⟩ := hinv.2.1 hne
  refine ⟨hper, ?_, wd_min_timeout_mem ctx.items hne hinv.2.2,
    fun t ht => wd_min_timeout_le ctx.items t ht⟩
  rw [hper]
  exact le_max_right _ _

/-- Witness for C3: adding a single 2000 ms watchdog to a fresh system
yields `period_ms = max(2000 / 2, 50) = 1000`. -/
theorem watchdog_period_invariant_witness :
    (update_work_period ⟨[2000], 0, false⟩).period_ms = 1000 := by
  have h := watchdog_period_invariant _
    (WdReachable.add ⟨[], 0, false⟩ 2000 WdReachable.init
      (by norm_num [WATCHDOG_MIN_TIMEOUT_MS]) (by norm_num [ULONG_MAX]))
  have h2 : (update_work_period ⟨[2000], 0, false⟩).period_ms =
      max (wd_min_timeout [2000] / 2) WATCHDOG_MAX_WORK_PERIOD_MS :=
    (h.1 (by decide)).1
  rw [h2]
  decide

/-- C8: repeated `watchdog_start` calls without an intervening cancel leave
`start_time` unchanged — a start on an already active item is a no-op, and
after any start the item is active, so a second start never rewrites
`start_time`. -/
theorem watchdog_start_once (item : watchdog_item) (n1 n2 : Nat)
    (hv : item.valid = true) :
    (item.active = true → (watchdog_start true n1 item).1 = item) ∧
    (watchdog_start true n2 (watchdog_start true n1 item).1).1.start_time =
      (watchdog_start true n1 item).1.start_time := by
  by_cases ha : item.active = true
  · exact ⟨fun _ => by simp [watchdog_start, hv, ha],
      by simp [watchdog_start, hv, ha]⟩
  · have ha' : item.active = false := by simpa using ha
    exact ⟨fun h => absurd h ha, by simp [watchdog_start, hv, ha']⟩

/-- Witness for C8: a fresh inactive item started at time 5 and again at
time 9 keeps `start_time = 5`. -/
theorem watchdog_start_once_witness :
    (((⟨300, 0, false, true⟩ : watchdog_item).active = true →
      (watchdog_start true 5 ⟨300, 0, false, true⟩).1 = ⟨300, 0, false, true⟩)) ∧
    (watchdog_start true 9
        (watchdog_start true 5 ⟨300, 0, false, true⟩).1).1.start_time =
      (watchdog_start true 5 ⟨300, 0, false, true⟩).1.start_time :=
  watchdog_start_once ⟨300, 0, false, true⟩ 5 9 rfl

/-- C9: for every `add_item` call on an initialized watcher with a sampler
present, a zero interval in the init struct resolves to the watcher's base
period (any created item carries `base_interval_ms`), and an interval that
is not a multiple of the base period or is smaller than it makes the call
fail with the watcher — its item list and counters — completely
unchanged. -/
theorem state_watcher_add_item_validation (w : state_watcher)
    (init : watch_item_init) (alloc_ok : Bool) (now : Nat)
    (hw : w.initialized = true) (hs : init.has_state_func = true) :
    (init.interval_ms = 0 → ∀ it,
      (state_watcher_add_item w init alloc_ok now).2 = some it →
      it.interval_ms = w.base_interval_ms) ∧
    (resolved_interval w init % w.base_interval_ms ≠ 0 ∨
        resolved_interval w init < w.base_interval_ms →
      state_watcher_add_item w init alloc_ok now = (w, none)) := by
  have hcond : ¬(¬w.initialized = true ∨ ¬init.has_state_func = true) := by
    simp [hw, hs]
  constructor
  · intro h0 it hsome
    have hres : resolved_interval w init = w.base_interval_ms := by
      simp [resolved_interval, h0]
    unfold state_watcher_add_item at hsome
    rw [if_neg hcond] at hsome
    split_ifs at hsome
    all_goals simp_all [new_watch_item]
    rw [← hsome]
  · intro hbad
    unfold state_watcher_add_item
    rw [if_neg hcond]
    rcases hbad with hb | hb
    · rw [if_pos hb]
    · by_cases hmod : resolved_interval w init % w.base_interval_ms ≠ 0
      · rw [if_pos hmod]
      · rw [if_neg hmod, if_pos hb]

/-- Witness for C9: an init struct with interval 0 on a base-200 watcher
creates an item with interval 200; the validation conjunct holds
vacuously for this input. -/
theorem state_watcher_add_item_validation_witness :
    ((0 : Nat) = 0 → ∀ it,
      (state_watcher_add_item ⟨true, false, 200, [], 0, 0⟩ ⟨0, 3, true, true⟩
        true 0).2 = some it → it.interval_ms = 200) ∧
    (resolved_interval ⟨true, false, 200, [], 0, 0⟩ ⟨0, 3, true, true⟩ % 200 ≠ 0 ∨
        resolved_interval ⟨true, false, 200, [], 0, 0⟩ ⟨0, 3, true, true⟩ < 200 →
      state_watcher_add_item ⟨true, false, 200, [], 0, 0⟩ ⟨0, 3, true, true⟩
        true 0 = (⟨true, false, 200, [], 0, 0⟩, none)) :=
  state_watcher_add_item_validation ⟨true, false, 200, [], 0, 0⟩
    ⟨0, 3, true, true⟩ true 0 rfl rfl

theorem find_entry_self (entries : List netdev_monitor_entry)
    (e : netdev_monitor_entry) (he : e ∈ entries)
    (hnd : (entries.map (fun x => x.ifname)).Nodup) :
    entries.find? (fun x => x.ifname == e.ifname) = some e := by
  induction entries with
  | nil => cases he
  | cons a l ih =>
    rw [List.map_cons, List.nodup_cons] at hnd
    rcases List.mem_cons.mp he with h | hmem
    · subst h
      simp [List.find?_cons]
    · have hfalse : (a.ifname == e.ifname) = false := by
        rw [beq_eq_false_iff_ne]
        intro hEq
        have hm : e.ifname ∈ l.map (fun x => x.ifname) :=
          List.mem_map_of_mem (fun x => x.ifname) hmem
        rw [← hEq] at hm
        exact hnd.1 hm
      rw [List.find?_cons]
      simp only [hfalse, cond_false]
      exact ih hmem hnd.2

/-- C7: for every registry whose interface names are distinct (the
registration path rejects duplicates with `-EEXIST`), the all-interfaces
query — `netdevice_stats_delta(NULL)` — equals, in each of the four rate
fields, the `unsigned long` sum over all registered interfaces of the
corresponding field of the single-interface query for that interface's
name. -/
theorem netdevice_stats_delta_all_eq_sum (entries : List netdev_monitor_entry)
    (hnd : (entries.map (fun e => e.ifname)).Nodup) :
    netdevice_stats_delta entries none =
      (entries.map (fun e => netdevice_stats_delta entries (some e.ifname))).foldl
        stats_add zero_stats := by
  have hmap : entries.map (fun e => netdevice_stats_delta entries (some e.ifname)) =
      entries.map entry_rates := by
    apply List.map_congr_left
    intro e he
    simp only [netdevice_stats_delta]
    rw [find_entry_self entries e he hnd]
  rw [hmap, List.foldl_map]
  rfl

/-- Witness for C7 on a concrete two-interface registry. -/
theorem netdevice_stats_delta_all_eq_sum_witness :
    netdevice_stats_delta
        [⟨"eth0", ⟨110, 2800, 55, 1100⟩, ⟨100, 2000, 50, 1000⟩, 1500, 1000⟩,
         ⟨"wlan0", ⟨10, 20, 30, 40⟩, ⟨0, 0, 0, 0⟩, 2000, 1000⟩] none =
      (([⟨"eth0", ⟨110, 2800, 55, 1100⟩, ⟨100, 2000, 50, 1000⟩, 1500, 1000⟩,
         ⟨"wlan0", ⟨10, 20, 30, 40⟩, ⟨0, 0, 0, 0⟩, 2000, 1000⟩]
        : List netdev_monitor_entry).map
          (fun e => netdevice_stats_delta
            [⟨"eth0", ⟨110, 2800, 55, 1100⟩, ⟨100, 2000, 50, 1000⟩, 1500, 1000⟩,
             ⟨"wlan0", ⟨10, 20, 30, 40⟩, ⟨0, 0, 0, 0⟩, 2000, 1000⟩]
            (some e.ifname))).foldl stats_add zero_stats :=
  netdevice_stats_delta_all_eq_sum
    [⟨"eth0", ⟨110, 2800, 55, 1100⟩, ⟨100, 2000, 50, 1000⟩, 1500, 1000⟩,
     ⟨"wlan0", ⟨10, 20, 30, 40⟩, ⟨0, 0, 0, 0⟩, 2000, 1000⟩] (by decide)

/-- Helper for C10: from a comparator state with the scratch reset
(`consecutive_count = 0`), the candidate still equal to the fired value
and the baseline unchanged, feeding `hysteresis` more copies of that value
makes the comparator fire again on the last one. -/
theorem hysteresis_rerun_fires (s : watch_item) (v H : Nat)
    (hHeq : s.hysteresis = H) (hH : 0 < H) (hcand : s.candidate_state = v)
    (hcnt : s.consecutive_count = 0) (hlast : s.last_action_state ≠ v) :
    (state_watcher_state_changed_with_hysteresis
      (hysteresis_rerun s v (H - 1)) v).2 = true := by
  have hH0 : ¬s.hysteresis = 0 := by omega
  have hrun : ∀ k, k ≤ H - 1 →
      hysteresis_rerun s v k = { s with consecutive_count := k } := by
    intro k
    induction k with
    | zero =>
      intro _
      rw [hysteresis_rerun, ← hcnt]
    | succ n ih =>
      intro hle
      rw [hysteresis_rerun, ih (by omega)]
      unfold state_watcher_state_changed_with_hysteresis
      rw [if_neg (by simpa using hH0)]
      rw [if_neg (by simpa using fun h => hlast h)]
      rw [if_pos (by simpa using hcand)]
      rw [if_neg (by simpa using by omega : ¬({ s with consecutive_count := n
        } : watch_item).hysteresis ≤ ({ s with consecutive_count := n
        } : watch_item).consecutive_count + 1)]
  rw [hrun (H - 1) le_rfl]
  unfold state_watcher_state_changed_with_hysteresis
  rw [if_neg (by simpa using hH0)]
  rw [if_neg (by simpa using fun h => hlast h)]
  rw [if_pos (by simpa using hcand)]
  rw [if_pos (by simpa using by omega : ({ s with consecutive_count :=
    H - 1 } : watch_item).hysteresis ≤ ({ s with consecutive_count :=
    H - 1 } : watch_item).consecutive_count + 1)]

/-- C6: during a due tick with an unexpired override active, the sampler is
still invoked and `check_count`/`total_checks` still increment, the value
fed to change detection — and stored in `current_state` — is the forced
value rather than the sampler's output, the fire decision is the raw
inequality `last_action_state ≠ forced_state` with the hysteresis scratch
untouched, and the whole tick result is independent of the sampler's
output. -/
theorem forced_override_tick (w : state_watcher) (item : watch_item)
    (t raw : Nat)
    (hdue : item.last_check_time + item.interval_ms < t)
    (hforced : item.is_forced = true)
    (hnoexp : ¬(item.forced_state_expire_time < t))
    (hsf : item.has_state_func = true) :
    (state_watcher_item_tick w item t raw).2.1.check_count =
      item.check_count + 1 ∧
    (state_watcher_item_tick w item t raw).1.total_checks =
      w.total_checks + 1 ∧
    (state_watcher_item_tick w item t raw).2.1.current_state =
      item.forced_state ∧
    (state_watcher_item_tick w item t raw).2.2 =
      decide (item.last_action_state ≠ item.forced_state) ∧
    (state_watcher_item_tick w item t raw).2.1.candidate_state =
      item.candidate_state ∧
    (state_watcher_item_tick w item t raw).2.1.consecutive_count =
      item.consecutive_count ∧
    (∀ raw2, state_watcher_item_tick w item t raw2 =
      state_watcher_item_tick w item t raw) := by
  by_cases hact : item.has_action_func = true <;>
    by_cases hfire : item.last_action_state = item.forced_state <;>
      refine ⟨?_, ?_, ?_, ?_, ?_, ?_, fun raw2 => ?_⟩ <;>
        simp [state_watcher_item_tick, hdue, hforced, hnoexp, hsf, hact, hfire]

/-- Witness for C6: a due, forced item whose forced value 9 differs from
the baseline 5 fires by raw inequality and leaves the scratch alone. -/
theorem forced_override_tick_witness :
    (state_watcher_item_tick ⟨true, true, 100, [], 2, 1⟩
      ⟨100, 3, true, true, 5, 5, 0, 5, 0, true, 9, 1000, 2, 1⟩ 200 5).2.1.check_count =
      (⟨100, 3, true, true, 5, 5, 0, 5, 0, true, 9, 1000, 2, 1⟩ : watch_item).check_count + 1 ∧
    (state_watcher_item_tick ⟨true, true, 100, [], 2, 1⟩
      ⟨100, 3, true, true, 5, 5, 0, 5, 0, true, 9, 1000, 2, 1⟩ 200 5).1.total_checks =
      (⟨true, true, 100, [], 2, 1⟩ : state_watcher).total_checks + 1 ∧
    (state_watcher_item_tick ⟨true, true, 100, [], 2, 1⟩
      ⟨100, 3, true, true, 5, 5, 0, 5, 0, true, 9, 1000, 2, 1⟩ 200 5).2.1.current_state =
      (⟨100, 3, true, true, 5, 5, 0, 5, 0, true, 9, 1000, 2, 1⟩ : watch_item).forced_state ∧
    (state_watcher_item_tick ⟨true, true, 100, [], 2, 1⟩
      ⟨100, 3, true, true, 5, 5, 0, 5, 0, true, 9, 1000, 2, 1⟩ 200 5).2.2 =
      decide ((⟨100, 3, true, true, 5, 5, 0, 5, 0, true, 9, 1000, 2, 1⟩ : watch_item).last_action_state ≠
        (⟨100, 3, true, true, 5, 5, 0, 5, 0, true, 9, 1000, 2, 1⟩ : watch_item).forced_state) ∧
    (state_watcher_item_tick ⟨true, true, 100, [], 2, 1⟩
      ⟨100, 3, true, true, 5, 5, 0, 5, 0, true, 9, 1000, 2, 1⟩ 200 5).2.1.candidate_state =
      (⟨100, 3, true, true, 5, 5, 0, 5, 0, true, 9, 1000, 2, 1⟩ : watch_item).candidate_state ∧
    (state_watcher_item_tick ⟨true, true, 100, [], 2, 1⟩
      ⟨100, 3, true, true, 5, 5, 0, 5, 0, true, 9, 1000, 2, 1⟩ 200 5).2.1.consecutive_count =
      (⟨100, 3, true, true, 5, 5, 0, 5, 0, true, 9, 1000, 2, 1⟩ : watch_item).consecutive_count ∧
    (∀ raw2, state_watcher_item_tick ⟨true, true, 100, [], 2, 1⟩
      ⟨100, 3, true, true, 5, 5, 0, 5, 0, true, 9, 1000, 2, 1⟩ 200 raw2 =
      state_watcher_item_tick ⟨true, true, 100, [], 2, 1⟩
        ⟨100, 3, true, true, 5, 5, 0, 5, 0, true, 9, 1000, 2, 1⟩ 200 5) :=
  forced_override_tick ⟨true, true, 100, [], 2, 1⟩
    ⟨100, 3, true, true, 5, 5, 0, 5, 0, true, 9, 1000, 2, 1⟩ 200 5
    (by norm_num) rfl (by norm_num) rfl

/-- C10: on a due tick of a non-forced item with positive hysteresis whose
change detector fires while no action callback is registered,
`last_action_state`, `action_count` and `total_actions` are all left
unchanged, the hysteresis scratch has been reset to zero, and rebuilding
the consecutive count with `hysteresis` more samples of the same value
makes the detector fire again. -/
theorem fire_without_action_frame (w : state_watcher) (item : watch_item)
    (t raw : Nat)
    (hdue : item.last_check_time + item.interval_ms < t)
    (hsf : item.has_state_func = true)
    (hnof : item.is_forced = false)
    (hhyst : 0 < item.hysteresis)
    (hact : item.has_action_func = false)
    (hfire : (state_watcher_item_tick w item t raw).2.2 = true) :
    (state_watcher_item_tick w item t raw).2.1.last_action_state =
      item.last_action_state ∧
    (state_watcher_item_tick w item t raw).2.1.action_count =
      item.action_count ∧
    (state_watcher_item_tick w item t raw).1.total_actions =
      w.total_actions ∧
    (state_watcher_item_tick w item t raw).2.1.consecutive_count = 0 ∧
    (state_watcher_state_changed_with_hysteresis
      (hysteresis_rerun ((state_watcher_item_tick w item t raw).2.1) raw
        (item.hysteresis - 1)) raw).2 = true := by
  have hH0 : item.hysteresis ≠ 0 := Nat.pos_iff_ne_zero.mp hhyst
  by_cases hA : item.last_action_state = raw
  · exfalso
    rw [state_watcher_item_tick] at hfire
    simp [hdue, hnof, hsf, state_watcher_state_changed_with_hysteresis,
      hH0, hA] at hfire
  · by_cases hB : item.candidate_state = raw
    · by_cases hC : item.hysteresis ≤ item.consecutive_count + 1
      · refine ⟨?_, ?_, ?_, ?_, ?_⟩
        · simp [state_watcher_item_tick, hdue, hnof, hsf, hact,
            state_watcher_state_changed_with_hysteresis, hH0, hA, hB, hC]
        · simp [state_watcher_item_tick, hdue, hnof, hsf, hact,
            state_watcher_state_changed_with_hysteresis, hH0, hA, hB, hC]
        · simp [state_watcher_item_tick, hdue, hnof, hsf, hact,
            state_watcher_state_changed_with_hysteresis, hH0, hA, hB, hC]
        · simp [state_watcher_item_tick, hdue, hnof, hsf, hact,
            state_watcher_state_changed_with_hysteresis, hH0, hA, hB, hC]
        · refine hysteresis_rerun_fires _ raw item.hysteresis ?_ hhyst ?_ ?_ ?_
          · simp [state_watcher_item_tick, hdue, hnof, hsf, hact,
              state_watcher_state_changed_with_hysteresis, hH0, hA, hB, hC]
          · simp [state_watcher_item_tick, hdue, hnof, hsf, hact,
              state_watcher_state_changed_with_hysteresis, hH0, hA, hB, hC]
          · simp [state_watcher_item_tick, hdue, hnof, hsf, hact,
              state_watcher_state_changed_with_hysteresis, hH0, hA, hB, hC]
          · simp [state_watcher_item_tick, hdue, hnof, hsf, hact,
              state_watcher_state_changed_with_hysteresis, hH0, hA, hB, hC]
      · exfalso
        rw [state_watcher_item_tick] at hfire
        simp [hdue, hnof, hsf, state_watcher_state_changed_with_hysteresis,
          hH0, hA, hB, hC] at hfire
    · exfalso
      rw [state_watcher_item_tick] at hfire
      simp [hdue, hnof, hsf, state_watcher_state_changed_with_hysteresis,
        hH0, hA, hB] at hfire

/-- Witness for C10: a due item with hysteresis 2, count 1, candidate 8,
baseline 5 and no action callback fires on the next 8, keeps its baseline
and counters, and can fire again after two more 8s. -/
theorem fire_without_action_frame_witness :
    (state_watcher_item_tick ⟨true, true, 100, [], 2, 1⟩
      ⟨100, 2, true, false, 8, 5, 0, 8, 1, false, 0, 0, 2, 0⟩ 200 8).2.1.last_action_state =
      (⟨100, 2, true, false, 8, 5, 0, 8, 1, false, 0, 0, 2, 0⟩ : watch_item).last_action_state ∧
    (state_watcher_item_tick ⟨true, true, 100, [], 2, 1⟩
      ⟨100, 2, true, false, 8, 5, 0, 8, 1, false, 0, 0, 2, 0⟩ 200 8).2.1.action_count =
      (⟨100, 2, true, false, 8, 5, 0, 8, 1, false, 0, 0, 2, 0⟩ : watch_item).action_count ∧
    (state_watcher_item_tick ⟨true, true, 100, [], 2, 1⟩
      ⟨100, 2, true, false, 8, 5, 0, 8, 1, false, 0, 0, 2, 0⟩ 200 8).1.total_actions =
      (⟨true, true, 100, [], 2, 1⟩ : state_watcher).total_actions ∧
    (state_watcher_item_tick ⟨true, true, 100, [], 2, 1⟩
      ⟨100, 2, true, false, 8, 5, 0, 8, 1, false, 0, 0, 2, 0⟩ 200 8).2.1.consecutive_count = 0 ∧
    (state_watcher_state_changed_with_hysteresis
      (hysteresis_rerun ((state_watcher_item_tick ⟨true, true, 100, [], 2, 1⟩
        ⟨100, 2, true, false, 8, 5, 0, 8, 1, false, 0, 0, 2, 0⟩ 200 8).2.1) 8
        ((⟨100, 2, true, false, 8, 5, 0, 8, 1, false, 0, 0, 2, 0⟩ : watch_item).hysteresis - 1)) 8).2 = true :=
  fire_without_action_frame ⟨true, true, 100, [], 2, 1⟩
    ⟨100, 2, true, false, 8, 5, 0, 8, 1, false, 0, 0, 2, 0⟩ 200 8
    (by norm_num) rfl rfl (by norm_num) rfl (by decide)

theorem hyst_engine_step_baseline (item : watch_item) (x : Nat)
    (hH : ¬item.hysteresis = 0) (hA : item.last_action_state = x) :
    hyst_engine_step item x =
      ({ item with consecutive_count := 0, candidate_state := x }, false) := by
  unfold hyst_engine_step state_watcher_state_changed_with_hysteresis
  rw [if_neg hH, if_pos hA]
  rfl

theorem hyst_engine_step_fire (item : watch_item) (x : Nat)
    (hH : ¬item.hysteresis = 0) (hA : ¬item.last_action_state = x)
    (hB : item.candidate_state = x)
    (hC : item.hysteresis ≤ item.consecutive_count + 1) :
    hyst_engine_step item x =
      ({ item with consecutive_count := 0, last_action_state := x }, true) := by
  unfold hyst_engine_step state_watcher_state_changed_with_hysteresis
  rw [if_neg hH, if_neg hA, if_pos hB, if_pos hC]
  rfl

theorem hyst_engine_step_count (item : watch_item) (x : Nat)
    (hH : ¬item.hysteresis = 0) (hA : ¬item.last_action_state = x)
    (hB : item.candidate_state = x)
    (hC : ¬item.hysteresis ≤ item.consecutive_count + 1) :
    hyst_engine_step item x =
      ({ item with consecutive_count := item.consecutive_count + 1 }, false) := by
  unfold hyst_engine_step state_watcher_state_changed_with_hysteresis
  rw [if_neg hH, if_neg hA, if_pos hB, if_neg hC]
  rfl

theorem hyst_engine_step_newcand (item : watch_item) (x : Nat)
    (hH : ¬item.hysteresis = 0) (hA : ¬item.last_action_state = x)
    (hB : ¬item.candidate_state = x) :
    hyst_engine_step item x =
      ({ item with candidate_state := x, consecutive_count := 1 }, false) := by
  unfold hyst_engine_step state_watcher_state_changed_with_hysteresis
  rw [if_neg hH, if_neg hA, if_neg hB]
  rfl

theorem c1S_hysteresis (H : Nat) (f : Nat → Nat) (n : Nat) :
    (c1S H f n).hysteresis = H := by
  induction n with
  | zero => rfl
  | succ n ih =>
    show (hyst_engine_step (c1S H f n) (f n)).1.hysteresis = H
    unfold hyst_engine_step state_watcher_state_changed_with_hysteresis
    split_ifs <;> simp_all

theorem c1Inv_all (H : Nat) (hH : 0 < H) (f : Nat → Nat) :
    ∀ n, C1Inv H f n := by
  intro n
  induction n with
  | zero =>
    refine ⟨?_, ?_, ?_, ?_, ?_, ?_, ?_, ?_⟩
    · show (0 : Nat) < max H 2
      omega
    · intro _
      rfl
    · intro h
      exact absurd h (by omega)
    · intro h
      exact absurd (show (0 : Nat) < 0 from h) (by omega)
    · exact Nat.le_refl 0
    · intro j _ h2
      exact absurd h2 (Nat.not_lt_zero j)
    · intro j _ h2
      have hj : j = 0 := Nat.le_zero.mp h2
      subst hj
      rfl
    · intro h
      exact absurd (show (0 : Nat) < 0 from h) (by omega)
  | succ n ih =>
    have hH' : ¬(c1S H f n).hysteresis = 0 := by
      rw [c1S_hysteresis]
      omega
    by_cases hA : (c1S H f n).last_action_state = f n
    · have hs1 : c1S H f (n + 1) =
          { c1S H f n with consecutive_count := 0, candidate_state := f n } := by
        show (hyst_engine_step (c1S H f n) (f n)).1 = _
        rw [hyst_engine_step_baseline _ _ hH' hA]
      refine ⟨?_, ?_, ?_, ?_, ?_, ?_, ?_, ?_⟩
      · rw [hs1]
        show (0 : Nat) < max H 2
        omega
      · rw [hs1]
        intro _
        show f n = (c1S H f n).last_action_state
        exact hA.symm
      · rw [hs1]
        intro _
        show f n = f (n + 1 - 1)
        norm_num
      · rw [hs1]
        intro h
        exact absurd (show (0 : Nat) < 0 from h) (by omega)
      · rw [hs1]
        show (0 : Nat) ≤ n + 1
        omega
      · rw [hs1]
        intro j h1 h2
        have h1' : n + 1 - 0 ≤ j := h1
        exact absurd h2 (by omega)
      · rw [hs1]
        intro j h1 h2
        have h1' : n + 1 - 0 ≤ j := h1
        have hj : j = n + 1 := by omega
        subst hj
        rw [hs1]
      · rw [hs1]
        intro h
        exact absurd (show (0 : Nat) < 0 from h) (by omega)
    · by_cases hB : (c1S H f n).candidate_state = f n
      · by_cases hC : (c1S H f n).hysteresis ≤ (c1S H f n).consecutive_count + 1
        · have hs1 : c1S H f (n + 1) =
              { c1S H f n with consecutive_count := 0, last_action_state := f n } := by
            show (hyst_engine_step (c1S H f n) (f n)).1 = _
            rw [hyst_engine_step_fire _ _ hH' hA hB hC]
          refine ⟨?_, ?_, ?_, ?_, ?_, ?_, ?_, ?_⟩
          · rw [hs1]
            show (0 : Nat) < max H 2
            omega
          · rw [hs1]
            intro _
            show (c1S H f n).candidate_state = f n
            exact hB
          · rw [hs1]
            intro _
            show (c1S H f n).candidate_state = f (n + 1 - 1)
            rw [show n + 1 - 1 = n from by omega]
            exact hB
          · rw [hs1]
            intro h
            exact absurd (show (0 : Nat) < 0 from h) (by omega)
          · rw [hs1]
            show (0 : Nat) ≤ n + 1
            omega
          · rw [hs1]
            intro j h1 h2
            have h1' : n + 1 - 0 ≤ j := h1
            exact absurd h2 (by omega)
          · rw [hs1]
            intro j h1 h2
            have h1' : n + 1 - 0 ≤ j := h1
            have hj : j = n + 1 := by omega
            subst hj
            rw [hs1]
          · rw [hs1]
            intro h
            exact absurd (show (0 : Nat) < 0 from h) (by omega)
        · have hcnt0 : 0 < (c1S H f n).consecutive_count := by
            rcases Nat.eq_zero_or_pos (c1S H f n).consecutive_count with h0 | h
            · exact absurd ((ih.cand_zero h0).symm.trans hB) hA
            · exact h
          have hs1 : c1S H f (n + 1) =
              { c1S H f n with
                  consecutive_count := (c1S H f n).consecutive_count + 1 } := by
            show (hyst_engine_step (c1S H f n) (f n)).1 = _
            rw [hyst_engine_step_count _ _ hH' hA hB hC]
          have hHeq := c1S_hysteresis H f n
          refine ⟨?_, ?_, ?_, ?_, ?_, ?_, ?_, ?_⟩
          · rw [hs1]
            show (c1S H f n).consecutive_count + 1 < max H 2
            omega
          · rw [hs1]
            intro h
            exact absurd (show (c1S H f n).consecutive_count + 1 = 0 from h)
              (by omega)
          · rw [hs1]
            intro _
            show (c1S H f n).candidate_state = f (n + 1 - 1)
            rw [show n + 1 - 1 = n from by omega]
            exact hB
          · rw [hs1]
            intro _
            show (c1S H f n).candidate_state ≠ (c1S H f n).last_action_state
            intro hEq
            exact hA (hEq.symm.trans hB)
          · rw [hs1]
            show (c1S H f n).consecutive_count + 1 ≤ n + 1
            have := ih.run_le
            omega
          · rw [hs1]
            intro j h1 h2
            have h1' : n + 1 - ((c1S H f n).consecutive_count + 1) ≤ j := h1
            show f j = (c1S H f n).candidate_state
            by_cases hj : j < n
            · exact ih.run_window j (by omega) hj
            · have hj' : j = n := by omega
              subst hj'
              exact hB.symm ▸ hB.symm
          · rw [hs1]
            intro j h1 h2
            have h1' : n + 1 - ((c1S H f n).consecutive_count + 1) ≤ j := h1
            show (c1S H f j).last_action_state = (c1S H f n).last_action_state
            by_cases hj : j ≤ n
            · exact ih.run_base j (by omega) hj
            · have hj' : j = n + 1 := by omega
              subst hj'
              rw [hs1]
          · rw [hs1]
            intro _
            have h1' : n + 1 - ((c1S H f n).consecutive_count + 1) =
                n - (c1S H f n).consecutive_count := by omega
            rw [h1']
            show n - (c1S H f n).consecutive_count = 0 ∨
              f (n - (c1S H f n).consecutive_count - 1) ≠
                (c1S H f n).candidate_state
            exact ih.run_start hcnt0
      · have hs1 : c1S H f (n + 1) =
            { c1S H f n with candidate_state := f n, consecutive_count := 1 } := by
          show (hyst_engine_step (c1S H f n) (f n)).1 = _
          rw [hyst_engine_step_newcand _ _ hH' hA hB]
        refine ⟨?_, ?_, ?_, ?_, ?_, ?_, ?_, ?_⟩
        · rw [hs1]
          show (1 : Nat) < max H 2
          omega
        · rw [hs1]
          intro h
          exact absurd (show (1 : Nat) = 0 from h) (by omega)
        · rw [hs1]
          intro _
          show f n = f (n + 1 - 1)
          norm_num
        · rw [hs1]
          intro _
          show f n ≠ (c1S H f n).last_action_state
          intro hEq
          exact hA hEq.symm
        · rw [hs1]
          show (1 : Nat) ≤ n + 1
          omega
        · rw [hs1]
          intro j h1 h2
          have h1' : n + 1 - 1 ≤ j := h1
          have hj : j = n := by omega
          subst hj
          rfl
        · rw [hs1]
          intro j h1 h2
          have h1' : n + 1 - 1 ≤ j := h1
          show (c1S H f j).last_action_state = (c1S H f n).last_action_state
          by_cases hj : j = n
          · subst hj
            rfl
          · have hj' : j = n + 1 := by omega
            subst hj'
            rw [hs1]
        · rw [hs1]
          intro _
          by_cases hn : n = 0
          · left
            omega
          · right
            rw [show n + 1 - 1 - 1 = n - 1 from by omega]
            show f (n - 1) ≠ f n
            intro hEq
            exact hB ((ih.cand_prev (by omega)).trans hEq)

/-- Counterexample for C1 as stated: with hysteresis `H = 1` the first
sample of a new value is the 1st consecutive sample distinct from the
baseline, so the claim predicts a fire, but the comparator's new-candidate
branch only sets the count to 1 without checking the threshold, so no
action fires — the code needs a second sample even when `H = 1`. -/
theorem hysteresis_fire_claim_counterexample :
    ¬(c1F 1 (fun _ => 1) 0 = true ↔ specActionFires 1 1 (fun _ => 1) 0) := by
  intro h
  have hspec : specActionFires 1 1 (fun _ => 1) 0 := by
    unfold specActionFires
    exact ⟨by omega, fun j _ _ => rfl, by decide, Or.inl (by omega)⟩
  exact absurd (h.mpr hspec) (by decide)

/-- C1 (amended): for every watch item with hysteresis `H > 0` whose action
callback is registered, and every sequence of sampler outputs, an action
fires on sample `k` iff `k` is the `max(H, 2)`-th consecutive sample equal
to a value distinct from `last_action_state`, with no intervening sample
equal to it — the comparator's new-candidate branch does not test the
threshold, so even `H = 1` requires two consecutive samples; for `H ≥ 2`
the window is the claimed `H`. -/
theorem hysteresis_fire_iff (H : Nat) (hH : 0 < H) (f : Nat → Nat) (k : Nat) :
    c1F H f k = true ↔ specActionFires (max H 2) H f k := by
  have ihk := c1Inv_all H hH f k
  have hH' : ¬(c1S H f k).hysteresis = 0 := by
    rw [c1S_hysteresis]
    omega
  constructor
  · intro hf
    have hf' : (hyst_engine_step (c1S H f k) (f k)).2 = true := hf
    by_cases hA : (c1S H f k).last_action_state = f k
    · rw [hyst_engine_step_baseline _ _ hH' hA] at hf'
      exact absurd hf' (by simp)
    · by_cases hB : (c1S H f k).candidate_state = f k
      · by_cases hC : (c1S H f k).hysteresis ≤ (c1S H f k).consecutive_count + 1
        · have hcnt0 : 0 < (c1S H f k).consecutive_count := by
            rcases Nat.eq_zero_or_pos (c1S H f k).consecutive_count with h0 | h
            · exact absurd ((ihk.cand_zero h0).symm.trans hB) hA
            · exact h
          rw [c1S_hysteresis] at hC
          have hcnt : (c1S H f k).consecutive_count = max H 2 - 1 := by
            have h1 := ihk.cnt_lt
            omega
          have hrle := ihk.run_le
          unfold specActionFires
          refine ⟨by omega, ?_, ?_, ?_⟩
          · intro j h1 h2
            by_cases hj : j < k
            · exact (ihk.run_window j (by omega) hj).trans hB
            · have hj' : j = k := by omega
              subst hj'
              rfl
          · have hbase := ihk.run_base (k + 1 - max H 2) (by omega) (by omega)
            rw [hbase]
            exact fun hEq => hA hEq.symm
          · rcases ihk.run_start hcnt0 with h0 | hne
            · left
              omega
            · right
              rw [show k - max H 2 =
                k - (c1S H f k).consecutive_count - 1 from by omega]
              intro hEq
              exact hne (hEq.trans hB.symm)
        · rw [hyst_engine_step_count _ _ hH' hA hB hC] at hf'
          exact absurd hf' (by simp)
      · rw [hyst_engine_step_newcand _ _ hH' hA hB] at hf'
        exact absurd hf' (by simp)
  · intro hs
    unfold specActionFires at hs
    obtain ⟨hW, hwin, hbase, hstart⟩ := hs
    have hfa : f (k + 1 - max H 2) = f k := hwin _ (by omega) (by omega)
    have hwalk : ∀ i, 1 ≤ i → i ≤ max H 2 - 1 →
        c1S H f (k + 1 - max H 2 + i) =
          { c1S H f (k + 1 - max H 2) with
              candidate_state := f k, consecutive_count := i } := by
      intro i
      induction i with
      | zero =>
        intro h1 _
        exact absurd h1 (by omega)
      | succ i ihw =>
        intro h1 h2
        by_cases hi : i = 0
        · subst hi
          have iha := c1Inv_all H hH f (k + 1 - max H 2)
          have hHa : ¬(c1S H f (k + 1 - max H 2)).hysteresis = 0 := by
            rw [c1S_hysteresis]
            omega
          have hlasta : ¬(c1S H f (k + 1 - max H 2)).last_action_state =
              f (k + 1 - max H 2) := by
            rw [hfa]
            exact fun hEq => hbase hEq.symm
          have hcanda : ¬(c1S H f (k + 1 - max H 2)).candidate_state =
              f (k + 1 - max H 2) := by
            intro hEq
            rcases Nat.eq_zero_or_pos
                (c1S H f (k + 1 - max H 2)).consecutive_count with h0 | hpos
            · exact hlasta ((iha.cand_zero h0).symm.trans hEq)
            · have ha0 : 0 < k + 1 - max H 2 :=
                lt_of_lt_of_le hpos iha.run_le
              rcases hstart with h0' | hne
              · omega
              · apply hne
                rw [show k - max H 2 = k + 1 - max H 2 - 1 from by omega]
                rw [← iha.cand_prev ha0, hEq, hfa]
          show (hyst_engine_step (c1S H f (k + 1 - max H 2))
              (f (k + 1 - max H 2))).1 = _
          rw [hyst_engine_step_newcand _ _ hHa hlasta hcanda, hfa]
        · have hrec := ihw (by omega) (by omega)
          have hfai : f (k + 1 - max H 2 + i) = f k :=
            hwin _ (by omega) (by omega)
          have hstep := hyst_engine_step_count
            ({ c1S H f (k + 1 - max H 2) with
                candidate_state := f k, consecutive_count := i }) (f k)
            (by show ¬(c1S H f (k + 1 - max H 2)).hysteresis = 0
                rw [c1S_hysteresis]
                omega)
            (fun hEq => hbase hEq.symm)
            rfl
            (by show ¬(c1S H f (k + 1 - max H 2)).hysteresis ≤ i + 1
                rw [c1S_hysteresis]
                omega)
          show (hyst_engine_step (c1S H f (k + 1 - max H 2 + i))
              (f (k + 1 - max H 2 + i))).1 = _
          rw [hfai, hrec, hstep]
    have hfinal := hwalk (max H 2 - 1) (by omega) le_rfl
    have hak : k + 1 - max H 2 + (max H 2 - 1) = k := by omega
    rw [hak] at hfinal
    have hstepf := hyst_engine_step_fire
      ({ c1S H f (k + 1 - max H 2) with
          candidate_state := f k, consecutive_count := max H 2 - 1 }) (f k)
      (by show ¬(c1S H f (k + 1 - max H 2)).hysteresis = 0
          rw [c1S_hysteresis]
          omega)
      (fun hEq => hbase hEq.symm)
      rfl
      (by show (c1S H f (k + 1 - max H 2)).hysteresis ≤ max H 2 - 1 + 1
          rw [c1S_hysteresis]
          omega)
    show (hyst_engine_step (c1S H f k) (f k)).2 = true
    rw [hfinal, hstepf]

/-- Witness for C1 (amended): with hysteresis 2 and a constant stream of
1s from baseline 0, the action fires exactly on the second sample. -/
theorem hysteresis_fire_iff_witness : specActionFires 2 2 (fun _ => 1) 1 :=
  (hysteresis_fire_iff 2 (by norm_num) (fun _ => 1) 1).mp (by decide)
